import Mathlib

/-!
Shallow embedding of the ReAct agent control loop from `src/rag/agent.py`
(class `ReActAgent`): the agent/tools state machine built on langgraph, the
per-tool-call timeout/retry subsystem, and the budget-enforcement logic.

Modelling conventions:
* Python ints are `Int` (or `Nat` for counters that start at 0 and only
  increment), Python floats used for times are `ℚ` (only compared and
  subtracted, never rounded).
* The external language model is a parameter: `llmTools` models
  `self.llm_with_tools.invoke` (it may return an AI message with tool calls
  or raise), `llmPlain` models `self.llm.invoke` used by `_generate_summary`.
* A tool invocation attempt's observable outcome (what
  `_execute_tool_with_timeout` does: return a result, raise, or time out)
  is a parameter `beh : ToolCall → Nat → ToolOutcome`, indexed by the
  zero-based attempt number.
* `time.time()` is a `now : ℚ` parameter supplied per state-machine step.
* langgraph state merging: `messages` carries the `add_messages` reducer
  (append); every other key of `AgentState` has no reducer, so a key present
  in a node's returned update overwrites the previous value.
* A Python function that can raise an uncaught exception out of a node is
  modelled with `Option` (`none` = exception propagates).
-/

/-- `AgentConfig` from `agent.py` lines 23-47, with the pydantic defaults. -/
structure AgentConfig where
  max_iterations : Int := 15
  max_execution_time : ℚ := 300
  tool_execution_timeout : ℚ := 30
  max_tool_retries : Int := 2
  system_message : Option String := none
  max_workers : Int := 4
deriving Repr, DecidableEq

/-- A requested tool call `{id, name, args}` as carried by an AI message. -/
structure ToolCall where
  id : String
  name : String
  args : List (String × String)
deriving Repr, DecidableEq

/-- The four langchain message variants used by the agent, as a sum type:
System/Human/AI/Tool.  Only AI messages carry `tool_calls`; a ToolMessage
carries the originating call id and tool name. -/
inductive BaseMessage where
  | system (content : String)
  | human (content : String)
  | ai (content : String) (tool_calls : List ToolCall)
  | tool (content : String) (tool_call_id : String) (name : String)
deriving Repr, DecidableEq

/-- True exactly for `SystemMessage` (the `isinstance(msg, SystemMessage)`
probe on line 173). -/
def BaseMessage.isSystem : BaseMessage → Bool
  | .system _ => true
  | _ => false

/-- The error dictionaries built in `_agent_node` (lines 196-202) and in
`_execute_single_tool_call` (lines 297-304, 326-332), unified: fields absent
from one of the two shapes are `Option`s. -/
structure ErrorRecord where
  node : String
  tool : Option String := none
  error : String
  error_type : String
  attempts : Option Int := none
  iteration : Option Nat := none
  timestamp : ℚ := 0
deriving Repr, DecidableEq

/-- `AgentState` (lines 55-59): message history, iteration counter, run start
time, accumulated error records. -/
structure AgentState where
  messages : List BaseMessage
  iteration_count : Nat
  start_time : ℚ
  errors : List ErrorRecord
deriving Repr, DecidableEq

/-- A partial state update as returned by a langgraph node: a dict holding a
subset of the state keys.  `messages` is always treated as a (possibly empty)
list to append; the other keys are present (`some`) or absent (`none`). -/
structure StateUpdate where
  messages : List BaseMessage := []
  iteration_count : Option Nat := none
  errors : Option (List ErrorRecord) := none
deriving Repr, DecidableEq

/-- langgraph's state merge for `AgentState`: `messages` is annotated with the
`add_messages` reducer so node updates append; `iteration_count` and `errors`
have no reducer, so when a node's update contains the key the new value
replaces the old one; `start_time` is never written by any node. -/
def applyUpdate (s : AgentState) (u : StateUpdate) : AgentState :=
  { messages := s.messages ++ u.messages
    iteration_count := u.iteration_count.getD s.iteration_count
    start_time := s.start_time
    errors := u.errors.getD s.errors }

/-- Observable outcome of one tool-invocation attempt, i.e. of the call to
`_execute_tool_with_timeout` (lines 218-245): the tool returned a value
(already serialised by `str(result)`), raised an exception (with its class
name and `str(e)`), or timed out (`TimeoutError`). -/
inductive ToolOutcome where
  | success (result : String)
  | raised (etype : String) (emsg : String)
  | timedOut
deriving Repr, DecidableEq

/-- An attempt outcome that is not a success (it entered one of the two
`except` blocks of `_execute_single_tool_call`). -/
def ToolOutcome.isFailure : ToolOutcome → Bool
  | .success _ => false
  | _ => true

/-- The message of the `TimeoutError` raised on line 240. -/
def timeoutErrorText (cfg : AgentConfig) : String :=
  "Tool execution timed out after " ++ toString cfg.tool_execution_timeout
    ++ " seconds"

/-- The user-facing tool failure text built on lines 292-296 (timeout case). -/
def toolTimeoutMsg (cfg : AgentConfig) (tool_name : String) : String :=
  "Tool \x27" ++ tool_name ++ "\x27 timed out after "
    ++ toString (cfg.max_tool_retries + 1) ++ " attempts. Each attempt exceeded "
    ++ toString cfg.tool_execution_timeout ++ "s timeout."

/-- The user-facing tool failure text built on lines 320-325 (generic
exception case). -/
def toolFailMsg (cfg : AgentConfig) (tool_name : String) (err : String) : String :=
  "Tool \x27" ++ tool_name ++ "\x27 failed after "
    ++ toString (cfg.max_tool_retries + 1)
    ++ " attempts. Error: " ++ err
    ++ ". Please try a different approach or rephrase your query."

/-- `_execute_single_tool_call` (lines 247-341).  One attempt: unknown tool
names raise `ValueError("Unknown tool: ...")`, which the generic
`except Exception` handler catches like any tool-raised error; a timeout is
caught by the `except TimeoutError` handler; a success returns the
`ToolMessage` with no error record.  Every error record hard-codes
`attempts = max_tool_retries + 1`. -/
def execute_single_tool_call (cfg : AgentConfig) (registry : List String)
    (beh : ToolCall → Nat → ToolOutcome) (tc : ToolCall) (attempt : Nat)
    (now : ℚ) : BaseMessage × Option ErrorRecord :=
  if tc.name ∉ registry then
    ( .tool (toolFailMsg cfg tc.name ("Unknown tool: " ++ tc.name)) tc.id tc.name,
      some { node := "tools", tool := some tc.name
             error := "Unknown tool: " ++ tc.name, error_type := "ValueError"
             attempts := some (cfg.max_tool_retries + 1), timestamp := now } )
  else
    match beh tc attempt with
    | .success result =>
        (.tool result tc.id tc.name, none)
    | .timedOut =>
        ( .tool (toolTimeoutMsg cfg tc.name) tc.id tc.name,
          some { node := "tools", tool := some tc.name
                 error := timeoutErrorText cfg, error_type := "TimeoutError"
                 attempts := some (cfg.max_tool_retries + 1), timestamp := now } )
    | .raised etype emsg =>
        ( .tool (toolFailMsg cfg tc.name emsg) tc.id tc.name,
          some { node := "tools", tool := some tc.name
                 error := emsg, error_type := etype
                 attempts := some (cfg.max_tool_retries + 1), timestamp := now } )

/-- The backoff delay `0.5 * (2 ** attempt)` seconds computed on line 367. -/
def backoff (attempt : Nat) : ℚ := (1 / 2) * 2 ^ attempt

/-- The `for attempt in range(max_tool_retries + 1)` loop body of
`_execute_tool_call_with_retries` (lines 356-372), as structural recursion on
the number of remaining loop iterations.  Returns the function result
(`none` models Python falling off the end of the loop and returning `None`),
together with the number of attempts actually executed and the list of sleep
durations performed (in loop order). -/
def retryLoop (cfg : AgentConfig) (registry : List String)
    (beh : ToolCall → Nat → ToolOutcome) (tc : ToolCall) (now : ℚ) :
    Nat → Nat → Option (BaseMessage × Option ErrorRecord) × Nat × List ℚ
  | _, 0 => (none, 0, [])
  | attempt, remaining + 1 =>
    match execute_single_tool_call cfg registry beh tc attempt now with
    | (tool_message, none) => (some (tool_message, none), 1, [])
    | (tool_message, some record) =>
      if (attempt : Int) < cfg.max_tool_retries then
        ((retryLoop cfg registry beh tc now (attempt + 1) remaining).1,
         (retryLoop cfg registry beh tc now (attempt + 1) remaining).2.1 + 1,
         backoff attempt :: (retryLoop cfg registry beh tc now (attempt + 1) remaining).2.2)
      else
        (some (tool_message, some record), 1, [])

/-- `_execute_tool_call_with_retries` (lines 343-372): run the retry loop for
`max_tool_retries + 1` iterations starting at attempt 0.  When
`max_tool_retries < 0` the Python `range` is empty, the loop body never runs
and the function implicitly returns `None` (first component `none`). -/
def execute_tool_call_with_retries (cfg : AgentConfig) (registry : List String)
    (beh : ToolCall → Nat → ToolOutcome) (tc : ToolCall) (now : ℚ) :
    Option (BaseMessage × Option ErrorRecord) × Nat × List ℚ :=
  retryLoop cfg registry beh tc now 0 (cfg.max_tool_retries + 1).toNat

/-- What the external model invocation can raise: the exception class name
(`type(e).__name__`) and its text (`str(e)`). -/
structure LLMError where
  etype : String
  emsg : String
deriving Repr, DecidableEq

/-- The outcome of `self.llm_with_tools.invoke(messages)`: either an AI
message (content plus requested tool calls) or a raised exception. -/
def LLMWithTools : Type := List BaseMessage → Except LLMError (String × List ToolCall)

/-- The outcome of `self.llm.invoke(messages)` as used by `_generate_summary`:
either a response content string or a raised exception. -/
def LLMPlain : Type := List BaseMessage → Except LLMError String

/-- The summary request appended by `_generate_summary` (lines 112-120). -/
def summaryPrompt : String :=
  "Summarize the conversation. Focus on the main facts, any "
    ++ "uncertainties, and recommend one next step. Do not repeat raw tool "
    ++ "outputs verbatim; synthesize them. Aim at responding to the user\x27s "
    ++ "original question as well as the provided material allows."
    ++ "State what you didn\x27t manage to achieve."

/-- `_generate_summary` (lines 110-127): append the summary prompt, invoke the
plain model, strip the response; on any error substitute the fixed apology. -/
def generate_summary (llmPlain : LLMPlain) (messages : List BaseMessage) : String :=
  match llmPlain (messages ++ [.human summaryPrompt]) with
  | .ok content => content.trim
  | .error _ => "I couldn\x27t produce a summary due to an error."

/-- `_handle_agent_iter_overrun` (lines 130-142): forced-summary AI message
(no tool calls) plus the iteration increment; no `errors` key. -/
def handle_agent_iter_overrun (cfg : AgentConfig) (llmPlain : LLMPlain)
    (messages : List BaseMessage) (iteration : Nat) : StateUpdate :=
  { messages := [.ai ("I\x27ve reached the maximum number of reasoning steps ("
        ++ toString cfg.max_iterations ++ "). Here\x27s what I found:\n\n"
        ++ generate_summary llmPlain messages) []]
    iteration_count := some (iteration + 1) }

/-- `_handle_agent_timeout` (lines 144-158): forced-summary AI message
(no tool calls) plus the iteration increment; no `errors` key. -/
def handle_agent_timeout (_cfg : AgentConfig) (llmPlain : LLMPlain)
    (messages : List BaseMessage) (iteration : Nat) : StateUpdate :=
  { messages := [.ai ("I\x27ve reached the time limit for this query. "
        ++ "Here\x27s what I found:\n\n" ++ generate_summary llmPlain messages) []]
    iteration_count := some (iteration + 1) }

/-- The local message list handed to `self.llm_with_tools.invoke` by
`_agent_node` (lines 171-176): when a system message is configured (and, as
in Python truthiness, non-empty), the iteration is 0 and no `SystemMessage`
is already present, prepend one to the local copy only. -/
def agent_llm_input (cfg : AgentConfig) (state : AgentState) : List BaseMessage :=
  match cfg.system_message with
  | some sm =>
    if sm ≠ "" ∧ state.iteration_count = 0
        ∧ ¬ state.messages.any BaseMessage.isSystem then
      .system sm :: state.messages
    else state.messages
  | none => state.messages

/-- The diagnostic AI content built on lines 206-212 after a model error. -/
def agentErrorMsg (e : LLMError) : String :=
  "I encountered an error while processing your request: " ++ e.emsg
    ++ ". Please try rephrasing your question or breaking it into smaller parts."

/-- `_agent_node` (lines 160-216).  Branch order as in the source: iteration
overrun check first, then elapsed-time check (`elapsed = now - start_time`),
then the model invocation with the locally extended message list; a model
error is caught and turned into a diagnostic AI message, an iteration
increment and a single-element `errors` update. -/
def agent_node (cfg : AgentConfig) (llmTools : LLMWithTools) (llmPlain : LLMPlain)
    (now : ℚ) (state : AgentState) : StateUpdate :=
  if (state.iteration_count : Int) ≥ cfg.max_iterations then
    handle_agent_iter_overrun cfg llmPlain state.messages state.iteration_count
  else if now - state.start_time > cfg.max_execution_time then
    handle_agent_timeout cfg llmPlain state.messages state.iteration_count
  else
    match llmTools (agent_llm_input cfg state) with
    | .ok (content, tool_calls) =>
        { messages := [.ai content tool_calls]
          iteration_count := some (state.iteration_count + 1) }
    | .error e =>
        { messages := [.ai (agentErrorMsg e) []]
          iteration_count := some (state.iteration_count + 1)
          errors := some [{ node := "agent", error := e.emsg
                            error_type := e.etype, timestamp := now
                            iteration := some state.iteration_count }] }

/-- The sequential `for tool_call in last_message.tool_calls` loop of
`_tools_node` (lines 385-392): collect one ToolMessage per call, in call
order, plus the error records of the failed calls, in call order.  `none`
models the `TypeError` Python raises when unpacking the `None` returned by
`_execute_tool_call_with_retries` with a negative retry budget. -/
def tools_loop (cfg : AgentConfig) (registry : List String)
    (beh : ToolCall → Nat → ToolOutcome) (now : ℚ) :
    List ToolCall → Option (List BaseMessage × List ErrorRecord)
  | [] => some ([], [])
  | tc :: rest =>
    match (execute_tool_call_with_retries cfg registry beh tc now).1 with
    | none => none
    | some (tool_message, record) =>
      match tools_loop cfg registry beh now rest with
      | none => none
      | some (msgs, records) =>
        some (tool_message :: msgs,
              match record with
              | some r => r :: records
              | none => records)

/-- `last_message.tool_calls` when the attribute exists: only AI messages
carry `tool_calls` (the `hasattr` probe on lines 378 and 402). -/
def toolCallsOf : BaseMessage → Option (List ToolCall)
  | .ai _ tool_calls => some tool_calls
  | _ => none

/-- `_tools_node` (lines 374-397).  Reads the last message (`none` models the
`IndexError` on an empty history); with no tool calls it returns the empty
update; otherwise it runs every call through the retry wrapper and returns
the ToolMessages plus an `errors` key that is always present (the
`errors if errors else []` expression on line 396 yields a list either way,
and without a reducer this overwrites the state's `errors`). -/
def tools_node (cfg : AgentConfig) (registry : List String)
    (beh : ToolCall → Nat → ToolOutcome) (now : ℚ) (state : AgentState) :
    Option StateUpdate :=
  match state.messages.getLast? with
  | none => none
  | some last =>
    match toolCallsOf last with
    | none => some {}
    | some [] => some {}
    | some tool_calls =>
      match tools_loop cfg registry beh now tool_calls with
      | none => none
      | some (msgs, records) =>
        some { messages := msgs, errors := some records }

/-- The two targets of the conditional edge out of the agent node. -/
inductive Route where
  | tools
  | finish
deriving Repr, DecidableEq

/-- `_route_after_agent` (lines 399-408): end when the last message has no
`tool_calls` attribute or an empty list, otherwise go to tools.  `none`
models the `IndexError` on an empty history. -/
def route_after_agent (state : AgentState) : Option Route :=
  match state.messages.getLast? with
  | none => none
  | some last =>
    match toolCallsOf last with
    | none => some .finish
    | some [] => some .finish
    | some (_ :: _) => some .tools

/-- Control position of the compiled graph: about to run the agent node,
about to run the tools node, reached END, or an exception escaped a node. -/
inductive Phase where
  | agent
  | tools
  | finished
  | crashed
deriving Repr, DecidableEq

/-- A point of the run: control position plus the merged state. -/
structure RunState where
  phase : Phase
  state : AgentState
deriving Repr, DecidableEq

/-- One transition of the compiled graph (`_build_graph`, lines 90-108):
from the agent node, merge its update and follow the conditional edge; from
the tools node, merge its update and take the unconditional edge back to the
agent node.  `crashed` captures an exception escaping a node. -/
def stepRun (cfg : AgentConfig) (llmTools : LLMWithTools) (llmPlain : LLMPlain)
    (registry : List String) (beh : ToolCall → Nat → ToolOutcome) (now : ℚ)
    (rs : RunState) : RunState :=
  match rs.phase with
  | .agent =>
    let merged := applyUpdate rs.state (agent_node cfg llmTools llmPlain now rs.state)
    match route_after_agent merged with
    | none => { phase := .crashed, state := merged }
    | some .tools => { phase := .tools, state := merged }
    | some .finish => { phase := .finished, state := merged }
  | .tools =>
    match tools_node cfg registry beh now rs.state with
    | none => { phase := .crashed, state := rs.state }
    | some u => { phase := .agent, state := applyUpdate rs.state u }
  | .finished => rs
  | .crashed => rs

/-- Iterate `stepRun` for `fuel` transitions, drawing the wall-clock reading
of the k-th transition from `sched k`. -/
def runAgent (cfg : AgentConfig) (llmTools : LLMWithTools) (llmPlain : LLMPlain)
    (registry : List String) (beh : ToolCall → Nat → ToolOutcome)
    (sched : Nat → ℚ) : Nat → RunState → RunState
  | 0, rs => rs
  | fuel + 1, rs =>
    runAgent cfg llmTools llmPlain registry beh (fun k => sched (k + 1)) fuel
      (stepRun cfg llmTools llmPlain registry beh (sched 0) rs)

/-- The initial state built by `invoke` (lines 418-423). -/
def initialState (input_message : String) (start : ℚ) : AgentState :=
  { messages := [.human input_message], iteration_count := 0
    start_time := start, errors := [] }

/-- Projection used to compare a ToolMessage list with the issuing ToolCall
list: the `(tool_call_id, name)` pair of a ToolMessage, `none` for any other
message variant. -/
def toolMsgKey : BaseMessage → Option (String × String)
  | .tool _ tool_call_id toolname => some (tool_call_id, toolname)
  | _ => none

/-- The iteration budget invariant: whenever control still sits at an active
node (agent or tools), the iteration counter has not passed
`max_iterations`. -/
def IterBound (cfg : AgentConfig) (rs : RunState) : Prop :=
  (rs.phase = Phase.agent ∨ rs.phase = Phase.tools) →
    (rs.state.iteration_count : Int) ≤ cfg.max_iterations

/-! Concrete instances used by counterexamples and witnesses. -/

/-- A model stub that always answers plainly, with no tool calls. -/
abbrev wLlmOk : LLMWithTools := fun _ => .ok ("answer", [])

/-- A model stub whose every invocation raises. -/
abbrev wLlmErr : LLMWithTools := fun _ => .error { etype := "RuntimeError", emsg := "model down" }

/-- A plain-model stub for summary generation. -/
abbrev wLlmPlain : LLMPlain := fun _ => .ok "summary"

/-- A tool behaviour that succeeds on every attempt. -/
abbrev wBehOk : ToolCall → Nat → ToolOutcome := fun _ _ => .success "ok"

/-- A registered tool call used by witnesses. -/
def wTc : ToolCall := { id := "call-1", name := "t", args := [] }

/-- The fresh state `invoke` builds for the input "question" at time 0. -/
def wState : AgentState := initialState "question" 0

/-- A state whose last message is an AI message carrying three tool calls. -/
def wStateCalls : AgentState :=
  { messages := [.human "question",
      .ai "" [{ id := "a", name := "t", args := [] },
              { id := "b", name := "t", args := [] },
              { id := "c", name := "u", args := [] }]]
    iteration_count := 1, start_time := 0, errors := [] }

/-- The misspelled tool call from the spec scenario. -/
def typoCall : ToolCall := { id := "call-typo", name := "author_papers_typo", args := [] }

/-- Configuration for the error-discarding run: one attempt per tool call,
every other field at its default. -/
def bugCfg : AgentConfig := { max_tool_retries := 0 }

/-- Registry for the error-discarding run. -/
def bugRegistry : List String := ["flaky", "good"]

/-- Tool behaviour for the error-discarding run: "flaky" raises on every
attempt, every other tool succeeds. -/
def bugBeh : ToolCall → Nat → ToolOutcome :=
  fun tc _ => if tc.name = "flaky" then .raised "RuntimeError" "boom" else .success "42"

/-- Model stub for the error-discarding run: first call requests the failing
tool, second call requests the succeeding tool, then a plain answer. -/
abbrev bugLlmTools : LLMWithTools := fun msgs =>
  if msgs.length = 1 then .ok ("", [{ id := "call-1", name := "flaky", args := [] }])
  else if msgs.length = 3 then .ok ("", [{ id := "call-2", name := "good", args := [] }])
  else .ok ("done", [])

/-- The error-discarding run after `fuel` graph transitions, starting from
the state `invoke` builds for input "q" at time 0. -/
def bugRun (fuel : Nat) : RunState :=
  runAgent bugCfg bugLlmTools wLlmPlain bugRegistry bugBeh (fun _ => 0) fuel
    { phase := .agent, state := initialState "q" 0 }

/-- Configuration whose iteration budget is already exhausted at entry. -/
def zeroIterCfg : AgentConfig := { max_iterations := 0 }

/-- Configuration with a negative retry budget. -/
def negRetryCfg : AgentConfig := { max_tool_retries := -1 }

/-- Configuration carrying a system message. -/
def sysMsgCfg : AgentConfig := { system_message := some "You are a helpful assistant." }

/-- Tool behaviour that fails (raises) on attempt 0 and succeeds from
attempt 1 on. -/
def behFailThenOk : ToolCall → Nat → ToolOutcome :=
  fun _ attempt => if attempt = 0 then .raised "ValueError" "flake" else .success "done"

/-! Helper lemmas. -/

/-- Every attempt returns a ToolMessage addressed to the requesting call:
its `tool_call_id` and `name` are those of the ToolCall, whatever happened. -/
theorem execute_single_shape (cfg : AgentConfig) (registry : List String)
    (beh : ToolCall → Nat → ToolOutcome) (tc : ToolCall) (attempt : Nat) (now : ℚ) :
    ∃ content, (execute_single_tool_call cfg registry beh tc attempt now).1
      = BaseMessage.tool content tc.id tc.name := by
  unfold execute_single_tool_call
  split
  · exact ⟨_, rfl⟩
  · cases h : beh tc attempt <;> exact ⟨_, rfl⟩

/-- An attempt on an unknown name, or whose outcome is a failure, yields an
error record with the hard-coded attempt count `max_tool_retries + 1`. -/
theorem execute_single_fails (cfg : AgentConfig) (registry : List String)
    (beh : ToolCall → Nat → ToolOutcome) (tc : ToolCall) (attempt : Nat) (now : ℚ)
    (h : tc.name ∉ registry ∨ (beh tc attempt).isFailure = true) :
    ∃ record, (execute_single_tool_call cfg registry beh tc attempt now).2 = some record
      ∧ record.attempts = some (cfg.max_tool_retries + 1)
      ∧ record.node = "tools" ∧ record.tool = some tc.name := by
  unfold execute_single_tool_call
  split
  · exact ⟨_, rfl, rfl, rfl, rfl⟩
  · rcases h with h | h
    · simp_all
    · cases hb : beh tc attempt
      · rw [hb] at h; simp [ToolOutcome.isFailure] at h
      · exact ⟨_, rfl, rfl, rfl, rfl⟩
      · exact ⟨_, rfl, rfl, rfl, rfl⟩

/-- A successful attempt on a registered tool returns the serialised result
and no error record. -/
theorem execute_single_succeeds (cfg : AgentConfig) (registry : List String)
    (beh : ToolCall → Nat → ToolOutcome) (tc : ToolCall) (attempt : Nat) (now : ℚ)
    (result : String) (hreg : tc.name ∈ registry) (hb : beh tc attempt = .success result) :
    execute_single_tool_call cfg registry beh tc attempt now
      = (BaseMessage.tool result tc.id tc.name, none) := by
  unfold execute_single_tool_call
  split
  · simp_all
  · rw [hb]

/-- With a non-negative number of remaining loop iterations matching the
retry budget, the loop always returns a pair whose ToolMessage is addressed
to the requesting call, after at least one attempt. -/
theorem retryLoop_isSome (cfg : AgentConfig) (registry : List String)
    (beh : ToolCall → Nat → ToolOutcome) (tc : ToolCall) (now : ℚ) :
    ∀ (r a : Nat), (a : Int) + r = cfg.max_tool_retries + 1 → 1 ≤ r →
    ∃ content er,
      (retryLoop cfg registry beh tc now a r).1
        = some (BaseMessage.tool content tc.id tc.name, er)
      ∧ 1 ≤ (retryLoop cfg registry beh tc now a r).2.1 := by
  intro r
  induction r with
  | zero => intro a _ h1; exact absurd h1 (by omega)
  | succ r' ih =>
    intro a hsum _
    obtain ⟨content, hc⟩ := execute_single_shape cfg registry beh tc a now
    rcases hstep : execute_single_tool_call cfg registry beh tc a now with ⟨msg, recOpt⟩
    have hmsg : msg = BaseMessage.tool content tc.id tc.name := by
      rw [hstep] at hc; exact hc
    subst hmsg
    rcases recOpt with _ | record
    · exact ⟨content, none, by simp [retryLoop, hstep], by simp [retryLoop, hstep]⟩
    · by_cases hlt : (a : Int) < cfg.max_tool_retries
      · have hr' : 1 ≤ r' := by omega
        obtain ⟨c2, er2, h1, h2⟩ := ih (a + 1) (by push_cast; omega) hr'
        refine ⟨c2, er2, ?_, ?_⟩
        · simp [retryLoop, hstep, hlt, h1]
        · simp [retryLoop, hstep, hlt]
      · exact ⟨content, some record, by simp [retryLoop, hstep, hlt],
          by simp [retryLoop, hstep, hlt]⟩

/-- One unfolding step of the retry loop with at least one iteration left. -/
theorem retryLoop_step (cfg : AgentConfig) (registry : List String)
    (beh : ToolCall → Nat → ToolOutcome) (tc : ToolCall) (now : ℚ) (a r : Nat) :
    retryLoop cfg registry beh tc now a (r + 1)
      = (match execute_single_tool_call cfg registry beh tc a now with
         | (tool_message, none) => (some (tool_message, none), 1, [])
         | (tool_message, some record) =>
           if (a : Int) < cfg.max_tool_retries then
             ((retryLoop cfg registry beh tc now (a + 1) r).1,
              (retryLoop cfg registry beh tc now (a + 1) r).2.1 + 1,
              backoff a :: (retryLoop cfg registry beh tc now (a + 1) r).2.2)
           else (some (tool_message, some record), 1, [])) := rfl

/-- When every attempt fails (unknown name or failing outcome), the loop
runs through all of its `s + 1` iterations, sleeping the exponential backoff
after each of the first `s` attempts, and returns the final attempt's
ToolMessage and error record. -/
theorem retryLoop_all_fail (cfg : AgentConfig) (registry : List String)
    (beh : ToolCall → Nat → ToolOutcome) (tc : ToolCall) (now : ℚ)
    (hfail : ∀ k, tc.name ∉ registry ∨ (beh tc k).isFailure = true) :
    ∀ (s a : Nat), (a : Int) + s + 1 = cfg.max_tool_retries + 1 →
      retryLoop cfg registry beh tc now a (s + 1)
        = (some (execute_single_tool_call cfg registry beh tc (a + s) now),
           s + 1, (List.range' a s).map backoff) := by
  intro s
  induction s with
  | zero =>
    intro a hsum
    obtain ⟨record, hrec, -⟩ :=
      execute_single_fails cfg registry beh tc a now (hfail a)
    rcases hstep : execute_single_tool_call cfg registry beh tc a now with ⟨msg, recOpt⟩
    have hro : recOpt = some record := by rw [hstep] at hrec; exact hrec
    subst hro
    have hlt : ¬ (a : Int) < cfg.max_tool_retries := by omega
    simp [retryLoop_step, hstep, hlt]
  | succ s1 ih =>
    intro a hsum
    obtain ⟨record, hrec, -⟩ :=
      execute_single_fails cfg registry beh tc a now (hfail a)
    rcases hstep : execute_single_tool_call cfg registry beh tc a now with ⟨msg, recOpt⟩
    have hro : recOpt = some record := by rw [hstep] at hrec; exact hrec
    subst hro
    have hlt : (a : Int) < cfg.max_tool_retries := by omega
    have hrest := ih (a + 1) (by push_cast; omega)
    have hidx : a + 1 + s1 = a + (s1 + 1) := by omega
    rw [hidx] at hrest
    simp only [retryLoop_step cfg registry beh tc now a (s1 + 1), hstep]
    rw [if_pos hlt, hrest, List.range'_succ]
    simp

/-- When attempts `a, a+1, ...` fail up to attempt `k = a + d` and attempt
`k` succeeds (with `k` within the retry budget), the loop returns the success
immediately after `d + 1` attempts, having slept after each failed one. -/
theorem retryLoop_succeeds (cfg : AgentConfig) (registry : List String)
    (beh : ToolCall → Nat → ToolOutcome) (tc : ToolCall) (now : ℚ)
    (k : Nat) (result : String) (hreg : tc.name ∈ registry)
    (hsucc : beh tc k = .success result)
    (hbefore : ∀ j, j < k → (beh tc j).isFailure = true) :
    ∀ (d a r : Nat), (a : Int) + r = cfg.max_tool_retries + 1 →
      k = a + d → (k : Int) ≤ cfg.max_tool_retries →
      retryLoop cfg registry beh tc now a r
        = (some (BaseMessage.tool result tc.id tc.name, none), d + 1,
           (List.range' a d).map backoff) := by
  intro d
  induction d with
  | zero =>
    intro a r hsum hk hkb
    have ha : a = k := by omega
    subst ha
    obtain ⟨r1, rfl⟩ : ∃ r1, r = r1 + 1 := ⟨r - 1, by omega⟩
    have hsing := execute_single_succeeds cfg registry beh tc a now result hreg hsucc
    simp [retryLoop_step, hsing]
  | succ d1 ih =>
    intro a r hsum hk hkb
    obtain ⟨r1, rfl⟩ : ∃ r1, r = r1 + 1 := ⟨r - 1, by omega⟩
    have hfa : (beh tc a).isFailure = true := hbefore a (by omega)
    obtain ⟨record, hrec, -⟩ :=
      execute_single_fails cfg registry beh tc a now (Or.inr hfa)
    rcases hstep : execute_single_tool_call cfg registry beh tc a now with ⟨msg, recOpt⟩
    have hro : recOpt = some record := by rw [hstep] at hrec; exact hrec
    subst hro
    have hlt : (a : Int) < cfg.max_tool_retries := by omega
    have hrest := ih (a + 1) r1 (by push_cast; omega) (by omega) hkb
    simp only [retryLoop_step cfg registry beh tc now a r1, hstep]
    rw [if_pos hlt, hrest, List.range'_succ]
    simp

/-- With a non-negative retry budget, the retry wrapper always returns a
pair (never `None`), whose ToolMessage is addressed to the requesting call,
after at least one attempt. -/
theorem retries_total (cfg : AgentConfig) (registry : List String)
    (beh : ToolCall → Nat → ToolOutcome) (tc : ToolCall) (now : ℚ)
    (hm : 0 ≤ cfg.max_tool_retries) :
    ∃ content er,
      (execute_tool_call_with_retries cfg registry beh tc now).1
        = some (BaseMessage.tool content tc.id tc.name, er)
      ∧ 1 ≤ (execute_tool_call_with_retries cfg registry beh tc now).2.1 := by
  exact retryLoop_isSome cfg registry beh tc now
    (cfg.max_tool_retries + 1).toNat 0 (by omega) (by omega)

/-- The sequential dispatch loop, under a non-negative retry budget, returns
one ToolMessage per ToolCall, in the original call order, each addressed to
its own call. -/
theorem tools_loop_ordered (cfg : AgentConfig) (registry : List String)
    (beh : ToolCall → Nat → ToolOutcome) (now : ℚ)
    (hm : 0 ≤ cfg.max_tool_retries) :
    ∀ tool_calls : List ToolCall, ∃ msgs records,
      tools_loop cfg registry beh now tool_calls = some (msgs, records)
      ∧ msgs.map toolMsgKey = tool_calls.map (fun tc => some (tc.id, tc.name)) := by
  intro tool_calls
  induction tool_calls with
  | nil => exact ⟨[], [], rfl, rfl⟩
  | cons tc rest ih =>
    obtain ⟨content, er, h1, -⟩ := retries_total cfg registry beh tc now hm
    obtain ⟨msgs, records, h2, h3⟩ := ih
    rcases er with _ | record
    · refine ⟨BaseMessage.tool content tc.id tc.name :: msgs, records, ?_, ?_⟩
      · simp [tools_loop, h1, h2]
      · simp [toolMsgKey, h3]
    · refine ⟨BaseMessage.tool content tc.id tc.name :: msgs, record :: records, ?_, ?_⟩
      · simp [tools_loop, h1, h2]
      · simp [toolMsgKey, h3]

/-- Any update the tools node returns leaves `iteration_count` untouched
(the returned dict never contains that key). -/
theorem tools_node_iteration_none (cfg : AgentConfig) (registry : List String)
    (beh : ToolCall → Nat → ToolOutcome) (now : ℚ) (state : AgentState)
    (u : StateUpdate) (h : tools_node cfg registry beh now state = some u) :
    u.iteration_count = none := by
  unfold tools_node at h
  rcases hl : state.messages.getLast? with _ | last <;> simp only [hl] at h
  · exact absurd h (by simp)
  · rcases htc : toolCallsOf last with _ | tcs <;> simp only [htc] at h
    · cases Option.some.inj h; rfl
    · rcases tcs with _ | ⟨tc0, rest⟩
      · cases Option.some.inj h; rfl
      · rcases hlp : tools_loop cfg registry beh now (tc0 :: rest) with _ | ⟨msgs, records⟩ <;>
          simp only [hlp] at h
        · exact absurd h (by simp)
        · cases Option.some.inj h; rfl

/-- Routing after the agent node only looks at the last message: an AI
message with no tool calls routes to END. -/
theorem route_finish_of_last_no_calls (state : AgentState) (content : String)
    (h : state.messages.getLast? = some (BaseMessage.ai content [])) :
    route_after_agent state = some Route.finish := by
  unfold route_after_agent
  rw [h]
  rfl

/-- Every branch of the agent node increments `iteration_count` by exactly
one: the normal reasoning branch, the iteration-overrun branch, the
time-overrun branch, and the model-error recovery branch. -/
theorem agent_node_increments (cfg : AgentConfig) (llmTools : LLMWithTools)
    (llmPlain : LLMPlain) (now : ℚ) (state : AgentState) :
    (agent_node cfg llmTools llmPlain now state).iteration_count
      = some (state.iteration_count + 1) := by
  unfold agent_node
  split
  · rfl
  · split
    · rfl
    · rcases h : llmTools (agent_llm_input cfg state) with e | ⟨content, tool_calls⟩ <;> rfl

/-- Every branch of the agent node returns exactly one message, and it is an
AI message (never a System message). -/
theorem agent_node_messages_shape (cfg : AgentConfig) (llmTools : LLMWithTools)
    (llmPlain : LLMPlain) (now : ℚ) (state : AgentState) :
    ∃ content tool_calls,
      (agent_node cfg llmTools llmPlain now state).messages
        = [BaseMessage.ai content tool_calls] := by
  unfold agent_node
  split
  · exact ⟨_, _, rfl⟩
  · split
    · exact ⟨_, _, rfl⟩
    · rcases h : llmTools (agent_llm_input cfg state) with e | ⟨content, tool_calls⟩
      · exact ⟨_, _, rfl⟩
      · exact ⟨_, _, rfl⟩

/-- One graph transition preserves the iteration budget invariant: an active
control position never holds a counter past `max_iterations`, because the
pass entered with the counter at the bound takes the forced-summary path and
terminates. -/
theorem stepRun_preserves_iterBound (cfg : AgentConfig) (llmTools : LLMWithTools)
    (llmPlain : LLMPlain) (registry : List String)
    (beh : ToolCall → Nat → ToolOutcome) (now : ℚ) (rs : RunState)
    (h : IterBound cfg rs) :
    IterBound cfg (stepRun cfg llmTools llmPlain registry beh now rs) := by
  obtain ⟨ph, st⟩ := rs
  cases ph with
  | agent =>
    have hbound : (st.iteration_count : Int) ≤ cfg.max_iterations :=
      h (Or.inl rfl)
    by_cases hover : (st.iteration_count : Int) ≥ cfg.max_iterations
    · -- forced iteration-overrun pass: no tool calls, routes to END
      have hupd : agent_node cfg llmTools llmPlain now st
          = handle_agent_iter_overrun cfg llmPlain st.messages st.iteration_count := by
        unfold agent_node
        rw [if_pos hover]
      have hroute : route_after_agent
          (applyUpdate st (agent_node cfg llmTools llmPlain now st)) = some Route.finish := by
        apply route_finish_of_last_no_calls _ _
        rw [hupd]
        exact List.getLast?_concat _
      simp only [stepRun, hroute]
      intro hactive
      rcases hactive with hactive | hactive <;> exact absurd hactive (by simp)
    · -- counter strictly below the bound: it rises to at most the bound
      have hlt : (st.iteration_count : Int) < cfg.max_iterations := by omega
      have hiter : (applyUpdate st (agent_node cfg llmTools llmPlain now st)).iteration_count
          = st.iteration_count + 1 := by
        unfold applyUpdate
        rw [agent_node_increments]
        rfl
      simp only [stepRun]
      rcases hr : route_after_agent (applyUpdate st (agent_node cfg llmTools llmPlain now st))
          with _ | r
      · intro hactive; rcases hactive with hactive | hactive <;> exact absurd hactive (by simp)
      · cases r
        · intro _
          show ((applyUpdate st (agent_node cfg llmTools llmPlain now st)).iteration_count : Int)
            ≤ cfg.max_iterations
          rw [hiter]
          push_cast
          omega
        · intro hactive; rcases hactive with hactive | hactive <;> exact absurd hactive (by simp)
  | tools =>
    have hbound : (st.iteration_count : Int) ≤ cfg.max_iterations :=
      h (Or.inr rfl)
    simp only [stepRun]
    rcases ht : tools_node cfg registry beh now st with _ | u
    · intro hactive; rcases hactive with hactive | hactive <;> exact absurd hactive (by simp)
    · intro _
      show ((applyUpdate st u).iteration_count : Int) ≤ cfg.max_iterations
      unfold applyUpdate
      rw [tools_node_iteration_none cfg registry beh now st u ht]
      exact hbound
  | finished => exact h
  | crashed => exact h

/-- The iteration budget invariant is preserved along any run. -/
theorem runAgent_preserves_iterBound (cfg : AgentConfig) (llmTools : LLMWithTools)
    (llmPlain : LLMPlain) (registry : List String)
    (beh : ToolCall → Nat → ToolOutcome) :
    ∀ (fuel : Nat) (sched : Nat → ℚ) (rs : RunState), IterBound cfg rs →
      IterBound cfg (runAgent cfg llmTools llmPlain registry beh sched fuel rs) := by
  intro fuel
  induction fuel with
  | zero => intro sched rs h; exact h
  | succ f ih =>
    intro sched rs h
    exact ih (fun k => sched (k + 1))
      (stepRun cfg llmTools llmPlain registry beh (sched 0) rs)
      (stepRun_preserves_iterBound cfg llmTools llmPlain registry beh (sched 0) rs h)

/-! Claim theorems. -/

/-- Claim C1: entering a REASONING pass with the iteration budget exhausted
(or, failing that, with the elapsed time over `max_execution_time`) produces
a forced-summary AI message carrying no tool calls and no error record, does
not depend on the tool-requesting model at all, and routes the state machine
from REASONING straight to DONE with no tool dispatch. -/
theorem budget_overrun_forces_summary_and_done (cfg : AgentConfig)
    (llmTools : LLMWithTools) (llmPlain : LLMPlain) (registry : List String)
    (beh : ToolCall → Nat → ToolOutcome) (now : ℚ) (state : AgentState)
    (hover : (state.iteration_count : Int) ≥ cfg.max_iterations
      ∨ now - state.start_time > cfg.max_execution_time) :
    ∃ content,
      (agent_node cfg llmTools llmPlain now state).messages
        = [BaseMessage.ai content []]
      ∧ (agent_node cfg llmTools llmPlain now state).errors = none
      ∧ (∀ llmTools2 : LLMWithTools,
          agent_node cfg llmTools2 llmPlain now state
            = agent_node cfg llmTools llmPlain now state)
      ∧ route_after_agent (applyUpdate state (agent_node cfg llmTools llmPlain now state))
          = some Route.finish
      ∧ (stepRun cfg llmTools llmPlain registry beh now
          { phase := Phase.agent, state := state }).phase = Phase.finished := by
  have key : ∃ content, ∀ lt : LLMWithTools,
      agent_node cfg lt llmPlain now state
        = { messages := [BaseMessage.ai content []]
            iteration_count := some (state.iteration_count + 1) } := by
    by_cases hith : (state.iteration_count : Int) ≥ cfg.max_iterations
    · exact ⟨_, fun lt => by unfold agent_node; rw [if_pos hith]; rfl⟩
    · have htime : now - state.start_time > cfg.max_execution_time :=
        hover.resolve_left hith
      exact ⟨_, fun lt => by unfold agent_node; rw [if_neg hith, if_pos htime]; rfl⟩
  obtain ⟨content, hupd⟩ := key
  have hroute : route_after_agent
      (applyUpdate state (agent_node cfg llmTools llmPlain now state))
      = some Route.finish := by
    apply route_finish_of_last_no_calls _ content
    rw [hupd llmTools]
    exact List.getLast?_concat _
  refine ⟨content, ?_, ?_, ?_, hroute, ?_⟩
  · rw [hupd llmTools]
  · rw [hupd llmTools]
  · intro lt2; rw [hupd lt2, hupd llmTools]
  · simp only [stepRun, hroute]

/-- Witness for C1: with `max_iterations = 0` the very first REASONING pass
is a forced summary and the run finishes without tool dispatch. -/
theorem budget_overrun_forces_summary_and_done_witness :
    ∃ content,
      (agent_node zeroIterCfg wLlmOk wLlmPlain 0 wState).messages
        = [BaseMessage.ai content []]
      ∧ (agent_node zeroIterCfg wLlmOk wLlmPlain 0 wState).errors = none
      ∧ (∀ llmTools2 : LLMWithTools,
          agent_node zeroIterCfg llmTools2 wLlmPlain 0 wState
            = agent_node zeroIterCfg wLlmOk wLlmPlain 0 wState)
      ∧ route_after_agent (applyUpdate wState (agent_node zeroIterCfg wLlmOk wLlmPlain 0 wState))
          = some Route.finish
      ∧ (stepRun zeroIterCfg wLlmOk wLlmPlain [] wBehOk 0
          { phase := Phase.agent, state := wState }).phase = Phase.finished :=
  budget_overrun_forces_summary_and_done zeroIterCfg wLlmOk wLlmPlain [] wBehOk 0 wState
    (Or.inl (by decide))

/-- Claim C5: every transition through REASONING increments `iteration_count`
by exactly one, in every branch (normal reasoning, iteration overrun, time
overrun, model-error recovery); a TOOLS transition never changes the counter
(so after N completed REASONING passes from the initial counter 0 it equals
N); and along any run from the initial state the counter never exceeds
`max_iterations` while control is still at an active node — the
forced-summary path fires at the bound. -/
theorem reasoning_pass_increments_iteration_exactly_once (cfg : AgentConfig)
    (llmTools : LLMWithTools) (llmPlain : LLMPlain) (registry : List String)
    (beh : ToolCall → Nat → ToolOutcome) :
    (∀ now state, (agent_node cfg llmTools llmPlain now state).iteration_count
        = some (state.iteration_count + 1))
    ∧ (∀ now rs, rs.phase = Phase.tools →
        (stepRun cfg llmTools llmPlain registry beh now rs).state.iteration_count
          = rs.state.iteration_count)
    ∧ (0 ≤ cfg.max_iterations → ∀ (sched : Nat → ℚ) (fuel : Nat) input start,
        IterBound cfg (runAgent cfg llmTools llmPlain registry beh sched fuel
          { phase := Phase.agent, state := initialState input start })) := by
  refine ⟨fun now state => agent_node_increments cfg llmTools llmPlain now state,
    ?_, ?_⟩
  · intro now rs hp
    obtain ⟨ph, st⟩ := rs
    cases hp
    simp only [stepRun]
    rcases ht : tools_node cfg registry beh now st with _ | u
    · rfl
    · show (applyUpdate st u).iteration_count = st.iteration_count
      unfold applyUpdate
      rw [tools_node_iteration_none cfg registry beh now st u ht]
      rfl
  · intro hmi sched fuel input start
    apply runAgent_preserves_iterBound
    intro _
    show ((initialState input start).iteration_count : Int) ≤ cfg.max_iterations
    simpa using hmi

/-- Witness for C5: a REASONING pass takes the fresh state's counter from 0
to 1, and a two-step run under the default configuration keeps the counter
within the budget at its active position. -/
theorem reasoning_pass_increments_iteration_exactly_once_witness :
    (agent_node {} wLlmOk wLlmPlain 0 wState).iteration_count
      = some (wState.iteration_count + 1)
    ∧ IterBound {} (runAgent {} wLlmOk wLlmPlain [] wBehOk (fun _ => 0) 2
        { phase := Phase.agent, state := initialState "q" 0 }) :=
  ⟨(reasoning_pass_increments_iteration_exactly_once {} wLlmOk wLlmPlain [] wBehOk).1
      0 wState,
   (reasoning_pass_increments_iteration_exactly_once {} wLlmOk wLlmPlain [] wBehOk).2.2
      (by decide) (fun _ => 0) 2 "q" 0⟩

/-- Claim C2 counterexample: the call `author_papers_typo` (not in the
registry) is NOT failed in a single attempt with zero retries — the
`ValueError` raised on the unknown name is caught by the generic exception
handler, so under the default configuration the invocation makes 3 attempts,
sleeps the 0.5 s and 1 s backoffs, and the terminal record's kind is
"ValueError" with attempt count 3. -/
theorem unknown_tool_immediate_failure_counterexample :
    ¬ ((execute_tool_call_with_retries {} ["author_papers"] wBehOk typoCall 0).2.1 = 1
       ∧ (execute_tool_call_with_retries {} ["author_papers"] wBehOk typoCall 0).2.2 = [])
    ∧ (execute_tool_call_with_retries {} ["author_papers"] wBehOk typoCall 0).2.1 = 3
    ∧ (execute_tool_call_with_retries {} ["author_papers"] wBehOk typoCall 0).2.2
        = [backoff 0, backoff 1]
    ∧ (execute_tool_call_with_retries {} ["author_papers"] wBehOk typoCall 0).1
        = some (BaseMessage.tool
                  (toolFailMsg {} "author_papers_typo" "Unknown tool: author_papers_typo")
                  "call-typo" "author_papers_typo",
                some { node := "tools", tool := some "author_papers_typo"
                       error := "Unknown tool: author_papers_typo"
                       error_type := "ValueError", attempts := some 3, timestamp := 0 }) := by
  have h := retryLoop_all_fail ({} : AgentConfig) ["author_papers"] wBehOk typoCall 0
      (fun _ => Or.inl (by decide)) 2 0 (by decide)
  have he : execute_tool_call_with_retries {} ["author_papers"] wBehOk typoCall 0
      = retryLoop {} ["author_papers"] wBehOk typoCall 0 0 3 := rfl
  refine ⟨?_, ?_, ?_, ?_⟩
  · rintro ⟨h1, -⟩
    rw [he, h] at h1
    exact absurd h1 (by decide)
  · rw [he, h]
  · rw [he, h]; rfl
  · rw [he, h]; rfl

/-- Claim C2 (amended): a tool call whose name is not in the registry fails
on every attempt with the caught `ValueError("Unknown tool: ...")`; the
retry loop therefore performs `max_tool_retries + 1` attempts with the full
exponential backoff schedule, and returns a ToolMessage plus a terminal
ErrorRecord whose kind is "ValueError" and whose attempt count is
`max_tool_retries + 1`. -/
theorem unknown_tool_retried_with_backoff (cfg : AgentConfig) (registry : List String)
    (beh : ToolCall → Nat → ToolOutcome) (tc : ToolCall) (now : ℚ)
    (hm : 0 ≤ cfg.max_tool_retries) (hunk : tc.name ∉ registry) :
    execute_tool_call_with_retries cfg registry beh tc now
      = (some (BaseMessage.tool (toolFailMsg cfg tc.name ("Unknown tool: " ++ tc.name))
                 tc.id tc.name,
               some { node := "tools", tool := some tc.name
                      error := "Unknown tool: " ++ tc.name, error_type := "ValueError"
                      attempts := some (cfg.max_tool_retries + 1), timestamp := now }),
         cfg.max_tool_retries.toNat + 1,
         (List.range cfg.max_tool_retries.toNat).map backoff) := by
  have hse : (cfg.max_tool_retries + 1).toNat = cfg.max_tool_retries.toNat + 1 := by
    omega
  have hall := retryLoop_all_fail cfg registry beh tc now (fun _ => Or.inl hunk)
      cfg.max_tool_retries.toNat 0 (by omega)
  unfold execute_tool_call_with_retries
  rw [hse, hall, Nat.zero_add]
  unfold execute_single_tool_call
  rw [if_pos hunk, ← List.range_eq_range']

/-- Witness for the amended C2 at the spec's own example input. -/
theorem unknown_tool_retried_with_backoff_witness :
    execute_tool_call_with_retries {} ["author_papers"] wBehOk typoCall 0
      = (some (BaseMessage.tool
                 (toolFailMsg {} typoCall.name ("Unknown tool: " ++ typoCall.name))
                 typoCall.id typoCall.name,
               some { node := "tools", tool := some typoCall.name
                      error := "Unknown tool: " ++ typoCall.name, error_type := "ValueError"
                      attempts := some (({} : AgentConfig).max_tool_retries + 1)
                      timestamp := 0 }),
         ({} : AgentConfig).max_tool_retries.toNat + 1,
         (List.range ({} : AgentConfig).max_tool_retries.toNat).map backoff) :=
  unknown_tool_retried_with_backoff {} ["author_papers"] wBehOk typoCall 0
    (by decide) (by decide)

/-- Claim C4: a registered tool that fails (times out or raises) on every
attempt makes the retry wrapper perform exactly `max_tool_retries + 1`
attempts, sleep `0.5 * 2 ^ attempt` seconds after each non-final attempt
(attempts zero-indexed), and return a terminal ErrorRecord whose attempt
count equals `max_tool_retries + 1`. -/
theorem always_failing_tool_exhausts_retries (cfg : AgentConfig) (registry : List String)
    (beh : ToolCall → Nat → ToolOutcome) (tc : ToolCall) (now : ℚ)
    (hm : 0 ≤ cfg.max_tool_retries) (hreg : tc.name ∈ registry)
    (hfail : ∀ k, (beh tc k).isFailure = true) :
    ((execute_tool_call_with_retries cfg registry beh tc now).2.1 : Int)
        = cfg.max_tool_retries + 1
    ∧ (execute_tool_call_with_retries cfg registry beh tc now).2.2
        = (List.range cfg.max_tool_retries.toNat).map backoff
    ∧ ∃ tool_message record,
        (execute_tool_call_with_retries cfg registry beh tc now).1
          = some (tool_message, some record)
        ∧ record.attempts = some (cfg.max_tool_retries + 1)
        ∧ record.node = "tools" ∧ record.tool = some tc.name := by
  have hse : (cfg.max_tool_retries + 1).toNat = cfg.max_tool_retries.toNat + 1 := by
    omega
  have hall := retryLoop_all_fail cfg registry beh tc now (fun k => Or.inr (hfail k))
      cfg.max_tool_retries.toNat 0 (by omega)
  have he : execute_tool_call_with_retries cfg registry beh tc now
      = retryLoop cfg registry beh tc now 0 (cfg.max_tool_retries.toNat + 1) := by
    unfold execute_tool_call_with_retries
    rw [hse]
  obtain ⟨record, hrec, hatt, hnode, htool⟩ :=
    execute_single_fails cfg registry beh tc (0 + cfg.max_tool_retries.toNat) now
      (Or.inr (hfail _))
  rcases hstep : execute_single_tool_call cfg registry beh tc
      (0 + cfg.max_tool_retries.toNat) now with ⟨msg, recOpt⟩
  have hro : recOpt = some record := by rw [hstep] at hrec; exact hrec
  subst hro
  refine ⟨?_, ?_, msg, record, ?_, hatt, hnode, htool⟩
  · rw [he, hall]
    push_cast
    omega
  · rw [he, hall, ← List.range_eq_range']
  · rw [he, hall, hstep]

/-- Witness for C4: a tool that times out on every attempt under the default
configuration (3 attempts, backoffs after the first two). -/
theorem always_failing_tool_exhausts_retries_witness :
    ((execute_tool_call_with_retries {} ["t"] (fun _ _ => .timedOut) wTc 0).2.1 : Int)
        = ({} : AgentConfig).max_tool_retries + 1
    ∧ (execute_tool_call_with_retries {} ["t"] (fun _ _ => .timedOut) wTc 0).2.2
        = (List.range ({} : AgentConfig).max_tool_retries.toNat).map backoff
    ∧ ∃ tool_message record,
        (execute_tool_call_with_retries {} ["t"] (fun _ _ => .timedOut) wTc 0).1
          = some (tool_message, some record)
        ∧ record.attempts = some (({} : AgentConfig).max_tool_retries + 1)
        ∧ record.node = "tools" ∧ record.tool = some wTc.name :=
  always_failing_tool_exhausts_retries {} ["t"] (fun _ _ => .timedOut) wTc 0
    (by decide) (by decide) (fun _ => rfl)

/-- Claim C6: a registered tool that fails on attempts `0..k-1` and succeeds
on attempt `k ≤ max_tool_retries` makes the retry wrapper stop immediately at
the success: it returns the success ToolMessage with no error record, having
made exactly `k + 1` attempts. -/
theorem tool_success_on_attempt_k (cfg : AgentConfig) (registry : List String)
    (beh : ToolCall → Nat → ToolOutcome) (tc : ToolCall) (now : ℚ)
    (k : Nat) (result : String)
    (hreg : tc.name ∈ registry) (hk : (k : Int) ≤ cfg.max_tool_retries)
    (hsucc : beh tc k = .success result)
    (hbefore : ∀ j, j < k → (beh tc j).isFailure = true) :
    execute_tool_call_with_retries cfg registry beh tc now
      = (some (BaseMessage.tool result tc.id tc.name, none), k + 1,
         (List.range k).map backoff) := by
  have h := retryLoop_succeeds cfg registry beh tc now k result hreg hsucc hbefore
      k 0 (cfg.max_tool_retries + 1).toNat (by omega) (by omega) hk
  unfold execute_tool_call_with_retries
  rw [h, ← List.range_eq_range']

/-- Witness for C6: a tool that raises on attempt 0 and succeeds on attempt 1
returns the success after exactly 2 attempts under the default
configuration. -/
theorem tool_success_on_attempt_k_witness :
    execute_tool_call_with_retries {} ["t"] behFailThenOk wTc 0
      = (some (BaseMessage.tool "done" wTc.id wTc.name, none), 1 + 1,
         (List.range 1).map backoff) :=
  tool_success_on_attempt_k {} ["t"] behFailThenOk wTc 0 1 "done"
    (by decide) (by decide) rfl
    (fun j hj => by
      have hj0 : j = 0 := Nat.lt_one_iff.mp hj
      subst hj0
      rfl)

/-- The normal reasoning branch of the agent node: within both budgets and
with a model answer, the update is exactly the response message plus the
iteration increment; no `errors` key. -/
theorem agent_node_normal (cfg : AgentConfig) (llmTools : LLMWithTools)
    (llmPlain : LLMPlain) (now : ℚ) (state : AgentState)
    (h1 : ¬ (state.iteration_count : Int) ≥ cfg.max_iterations)
    (h2 : ¬ now - state.start_time > cfg.max_execution_time)
    (content : String) (tool_calls : List ToolCall)
    (hllm : llmTools (agent_llm_input cfg state) = .ok (content, tool_calls)) :
    agent_node cfg llmTools llmPlain now state
      = { messages := [BaseMessage.ai content tool_calls]
          iteration_count := some (state.iteration_count + 1) } := by
  unfold agent_node
  rw [if_neg h1, if_neg h2]
  simp only [hllm]

/-- Claim C3 (code bug): the `errors` key of `AgentState` has no reducer, so
a later tools pass overwrites the accumulated list.  In the concrete run
below, the first tools pass records an ErrorRecord for the failing tool
"flaky"; the second tools pass succeeds and returns `errors = []`, which
replaces the state's list, discarding the earlier record: the final state of
the finished run has an empty `errors` list even though a tools pass
produced a record during the run. -/
theorem errorrecord_discarded_by_later_tools_pass :
    (bugRun 2).state.errors
      = [{ node := "tools", tool := some "flaky", error := "boom",
           error_type := "RuntimeError", attempts := some 1, timestamp := 0 }]
    ∧ (bugRun 5).phase = Phase.finished
    ∧ (bugRun 5).state.errors = [] := by
  have htime : ¬ ((0:ℚ) - 0 > 300) := by simp
  have h1 : agent_node bugCfg bugLlmTools wLlmPlain 0 (initialState "q" 0)
      = { messages := [BaseMessage.ai "" [{ id := "call-1", name := "flaky", args := [] }]],
          iteration_count := some 1 } :=
    agent_node_normal bugCfg bugLlmTools wLlmPlain 0 (initialState "q" 0)
      (by decide) htime "" [{ id := "call-1", name := "flaky", args := [] }] rfl
  have e1 : bugRun 1
      = { phase := Phase.tools,
          state := { messages := [BaseMessage.human "q",
                       BaseMessage.ai "" [{ id := "call-1", name := "flaky", args := [] }]],
                     iteration_count := 1, start_time := 0, errors := [] } } := by
    show stepRun bugCfg bugLlmTools wLlmPlain bugRegistry bugBeh 0
        { phase := Phase.agent, state := initialState "q" 0 } = _
    simp only [stepRun, h1]
    rfl
  have e2 : bugRun 2
      = { phase := Phase.agent,
          state := { messages := [BaseMessage.human "q",
                       BaseMessage.ai "" [{ id := "call-1", name := "flaky", args := [] }],
                       BaseMessage.tool (toolFailMsg bugCfg "flaky" "boom") "call-1" "flaky"],
                     iteration_count := 1, start_time := 0,
                     errors := [{ node := "tools", tool := some "flaky", error := "boom",
                                  error_type := "RuntimeError", attempts := some 1,
                                  timestamp := 0 }] } } := by
    show stepRun bugCfg bugLlmTools wLlmPlain bugRegistry bugBeh 0 (bugRun 1) = _
    rw [e1]
    rfl
  have h3 : agent_node bugCfg bugLlmTools wLlmPlain 0 (bugRun 2).state
      = { messages := [BaseMessage.ai "" [{ id := "call-2", name := "good", args := [] }]],
          iteration_count := some 2 } := by
    rw [e2]
    exact agent_node_normal bugCfg bugLlmTools wLlmPlain 0 _
      (by decide) htime "" [{ id := "call-2", name := "good", args := [] }] rfl
  have e3 : bugRun 3
      = { phase := Phase.tools,
          state := { messages := [BaseMessage.human "q",
                       BaseMessage.ai "" [{ id := "call-1", name := "flaky", args := [] }],
                       BaseMessage.tool (toolFailMsg bugCfg "flaky" "boom") "call-1" "flaky",
                       BaseMessage.ai "" [{ id := "call-2", name := "good", args := [] }]],
                     iteration_count := 2, start_time := 0,
                     errors := [{ node := "tools", tool := some "flaky", error := "boom",
                                  error_type := "RuntimeError", attempts := some 1,
                                  timestamp := 0 }] } } := by
    show stepRun bugCfg bugLlmTools wLlmPlain bugRegistry bugBeh 0 (bugRun 2) = _
    rw [e2] at h3 ⊢
    simp only [stepRun, h3]
    rfl
  have e4 : bugRun 4
      = { phase := Phase.agent,
          state := { messages := [BaseMessage.human "q",
                       BaseMessage.ai "" [{ id := "call-1", name := "flaky", args := [] }],
                       BaseMessage.tool (toolFailMsg bugCfg "flaky" "boom") "call-1" "flaky",
                       BaseMessage.ai "" [{ id := "call-2", name := "good", args := [] }],
                       BaseMessage.tool "42" "call-2" "good"],
                     iteration_count := 2, start_time := 0, errors := [] } } := by
    show stepRun bugCfg bugLlmTools wLlmPlain bugRegistry bugBeh 0 (bugRun 3) = _
    rw [e3]
    rfl
  have h5 : agent_node bugCfg bugLlmTools wLlmPlain 0 (bugRun 4).state
      = { messages := [BaseMessage.ai "done" []],
          iteration_count := some 3 } := by
    rw [e4]
    exact agent_node_normal bugCfg bugLlmTools wLlmPlain 0 _
      (by decide) htime "done" [] rfl
  have e5 : bugRun 5
      = { phase := Phase.finished,
          state := { messages := [BaseMessage.human "q",
                       BaseMessage.ai "" [{ id := "call-1", name := "flaky", args := [] }],
                       BaseMessage.tool (toolFailMsg bugCfg "flaky" "boom") "call-1" "flaky",
                       BaseMessage.ai "" [{ id := "call-2", name := "good", args := [] }],
                       BaseMessage.tool "42" "call-2" "good",
                       BaseMessage.ai "done" []],
                     iteration_count := 3, start_time := 0, errors := [] } } := by
    show stepRun bugCfg bugLlmTools wLlmPlain bugRegistry bugBeh 0 (bugRun 4) = _
    rw [e4] at h5 ⊢
    simp only [stepRun, h5]
    rfl
  refine ⟨?_, ?_, ?_⟩
  · rw [e2]
  · rw [e5]
  · rw [e5]

/-- Claim C7: when the last message is an AI message carrying a non-empty
tool-call list, the tools node returns one ToolMessage per ToolCall, in the
order the calls were issued, each carrying its own call's id and name. -/
theorem tools_node_preserves_call_order (cfg : AgentConfig) (registry : List String)
    (beh : ToolCall → Nat → ToolOutcome) (now : ℚ) (state : AgentState)
    (content : String) (tool_calls : List ToolCall)
    (hm : 0 ≤ cfg.max_tool_retries)
    (hlast : state.messages.getLast? = some (BaseMessage.ai content tool_calls))
    (hne : tool_calls ≠ []) :
    ∃ u, tools_node cfg registry beh now state = some u
      ∧ u.messages.length = tool_calls.length
      ∧ u.messages.map toolMsgKey
          = tool_calls.map (fun tc => some (tc.id, tc.name)) := by
  obtain ⟨msgs, records, hloop, hmap⟩ :=
    tools_loop_ordered cfg registry beh now hm tool_calls
  rcases tool_calls with _ | ⟨tc0, rest⟩
  · exact absurd rfl hne
  · refine ⟨{ messages := msgs, errors := some records }, ?_, ?_, hmap⟩
    · simp only [tools_node, hlast, toolCallsOf, hloop]
    · have := congrArg List.length hmap
      simpa using this

/-- Witness for C7: three tool calls with ids a, b, c yield three
ToolMessages keyed a, b, c in that order. -/
theorem tools_node_preserves_call_order_witness :
    ∃ u, tools_node {} ["t", "u"] wBehOk 0 wStateCalls = some u
      ∧ u.messages.length = ([{ id := "a", name := "t", args := [] },
            { id := "b", name := "t", args := [] },
            { id := "c", name := "u", args := [] }] : List ToolCall).length
      ∧ u.messages.map toolMsgKey
          = ([{ id := "a", name := "t", args := [] },
              { id := "b", name := "t", args := [] },
              { id := "c", name := "u", args := [] }] : List ToolCall).map
              (fun tc => some (tc.id, tc.name)) :=
  tools_node_preserves_call_order {} ["t", "u"] wBehOk 0 wStateCalls ""
    [{ id := "a", name := "t", args := [] },
     { id := "b", name := "t", args := [] },
     { id := "c", name := "u", args := [] }]
    (by decide) rfl (by decide)

/-- Claim C8: an error raised by the model invocation during an in-budget
REASONING pass is caught locally: the update appends exactly one diagnostic
AI message describing the failure (with no tool calls), increments the
counter, records an ErrorRecord for the reasoning (agent) node, and the
state machine takes a well-defined transition to DONE — no exception
propagates out of the pass. -/
theorem model_error_recovered_locally (cfg : AgentConfig) (llmTools : LLMWithTools)
    (llmPlain : LLMPlain) (registry : List String) (beh : ToolCall → Nat → ToolOutcome)
    (now : ℚ) (state : AgentState) (e : LLMError)
    (hiter : (state.iteration_count : Int) < cfg.max_iterations)
    (htime : ¬ now - state.start_time > cfg.max_execution_time)
    (herr : llmTools (agent_llm_input cfg state) = .error e) :
    agent_node cfg llmTools llmPlain now state
      = { messages := [BaseMessage.ai (agentErrorMsg e) []],
          iteration_count := some (state.iteration_count + 1),
          errors := some [{ node := "agent", error := e.emsg, error_type := e.etype,
                            iteration := some state.iteration_count,
                            timestamp := now }] }
    ∧ route_after_agent (applyUpdate state (agent_node cfg llmTools llmPlain now state))
        = some Route.finish
    ∧ (stepRun cfg llmTools llmPlain registry beh now
        { phase := Phase.agent, state := state }).phase = Phase.finished := by
  have hneg : ¬ (state.iteration_count : Int) ≥ cfg.max_iterations := by omega
  have hupd : agent_node cfg llmTools llmPlain now state
      = { messages := [BaseMessage.ai (agentErrorMsg e) []],
          iteration_count := some (state.iteration_count + 1),
          errors := some [{ node := "agent", error := e.emsg, error_type := e.etype,
                            iteration := some state.iteration_count,
                            timestamp := now }] } := by
    unfold agent_node
    rw [if_neg hneg, if_neg htime]
    simp only [herr]
  have hroute : route_after_agent
      (applyUpdate state (agent_node cfg llmTools llmPlain now state))
      = some Route.finish := by
    apply route_finish_of_last_no_calls _ (agentErrorMsg e)
    rw [hupd]
    exact List.getLast?_concat _
  refine ⟨hupd, hroute, ?_⟩
  simp only [stepRun, hroute]

/-- Witness for C8: a model stub that raises "model down" on the fresh
default-configuration state. -/
theorem model_error_recovered_locally_witness :
    agent_node {} wLlmErr wLlmPlain 0 wState
      = { messages := [BaseMessage.ai
            (agentErrorMsg { etype := "RuntimeError", emsg := "model down" }) []],
          iteration_count := some (wState.iteration_count + 1),
          errors := some [{ node := "agent", error := "model down",
                            error_type := "RuntimeError",
                            iteration := some wState.iteration_count,
                            timestamp := 0 }] }
    ∧ route_after_agent (applyUpdate wState (agent_node {} wLlmErr wLlmPlain 0 wState))
        = some Route.finish
    ∧ (stepRun {} wLlmErr wLlmPlain [] wBehOk 0
        { phase := Phase.agent, state := wState }).phase = Phase.finished :=
  model_error_recovered_locally {} wLlmErr wLlmPlain [] wBehOk 0 wState
    { etype := "RuntimeError", emsg := "model down" }
    (by decide) (by simp [wState, initialState]) rfl

/-- Claim C9: with a configured (non-empty) system message, iteration 0 and
no System message already present, the System message is prepended only to
the local copy handed to the model; on later iterations the model input is
the history unchanged; the node's returned update never contains a System
message, so the persisted history stays free of System messages. -/
theorem system_message_local_only (cfg : AgentConfig) (llmTools : LLMWithTools)
    (llmPlain : LLMPlain) (now : ℚ) (state : AgentState) (sm : String)
    (hsm : cfg.system_message = some sm) (hne : sm ≠ "")
    (hnosys : state.messages.any BaseMessage.isSystem = false) :
    (state.iteration_count = 0 →
        agent_llm_input cfg state = BaseMessage.system sm :: state.messages)
    ∧ (state.iteration_count ≠ 0 → agent_llm_input cfg state = state.messages)
    ∧ (∀ m ∈ (agent_node cfg llmTools llmPlain now state).messages,
        m.isSystem = false)
    ∧ (applyUpdate state (agent_node cfg llmTools llmPlain now state)).messages.any
        BaseMessage.isSystem = false := by
  obtain ⟨c, tcs, hms⟩ := agent_node_messages_shape cfg llmTools llmPlain now state
  refine ⟨?_, ?_, ?_, ?_⟩
  · intro h0
    simp only [agent_llm_input, hsm]
    rw [if_pos ⟨hne, h0, by simp [hnosys]⟩]
  · intro hne0
    simp only [agent_llm_input, hsm]
    rw [if_neg (fun hc => hne0 hc.2.1)]
  · intro m hm
    rw [hms] at hm
    rw [List.mem_singleton.mp hm]
    rfl
  · show (state.messages ++ (agent_node cfg llmTools llmPlain now state).messages).any
        BaseMessage.isSystem = false
    rw [hms, List.any_append, hnosys]
    rfl

/-- Witness for C9: with a configured system message and a fresh state, the
model input gets the System message prepended while the persisted history
stays free of System messages. -/
theorem system_message_local_only_witness :
    agent_llm_input sysMsgCfg wState
      = BaseMessage.system "You are a helpful assistant." :: wState.messages
    ∧ (applyUpdate wState (agent_node sysMsgCfg wLlmOk wLlmPlain 0 wState)).messages.any
        BaseMessage.isSystem = false :=
  ⟨(system_message_local_only sysMsgCfg wLlmOk wLlmPlain 0 wState
      "You are a helpful assistant." rfl (by decide) rfl).1 rfl,
   (system_message_local_only sysMsgCfg wLlmOk wLlmPlain 0 wState
      "You are a helpful assistant." rfl (by decide) rfl).2.2.2⟩

/-- Claim C10: with a non-negative retry budget the retry wrapper always
returns a pair after at least one attempt, whatever the tool does — the
tools stage never aborts the run; with a negative budget the Python loop
body never executes, the function returns `None`, and the tools node (which
unpacks the pair) raises. -/
theorem retry_budget_sign_totality (cfg : AgentConfig) (registry : List String)
    (beh : ToolCall → Nat → ToolOutcome) (tc : ToolCall) (now : ℚ) :
    (0 ≤ cfg.max_tool_retries →
       ((execute_tool_call_with_retries cfg registry beh tc now).1.isSome = true
        ∧ 1 ≤ (execute_tool_call_with_retries cfg registry beh tc now).2.1))
    ∧ (cfg.max_tool_retries < 0 →
       execute_tool_call_with_retries cfg registry beh tc now = (none, 0, [])
       ∧ ∀ (state : AgentState) (content : String) (rest : List ToolCall),
           state.messages.getLast? = some (BaseMessage.ai content (tc :: rest)) →
           tools_node cfg registry beh now state = none) := by
  constructor
  · intro hm
    obtain ⟨c, er, h1, h2⟩ := retries_total cfg registry beh tc now hm
    exact ⟨by rw [h1]; rfl, h2⟩
  · intro hneg
    have hz : (cfg.max_tool_retries + 1).toNat = 0 := by omega
    have hret : execute_tool_call_with_retries cfg registry beh tc now
        = (none, 0, []) := by
      unfold execute_tool_call_with_retries
      rw [hz]
      rfl
    refine ⟨hret, ?_⟩
    intro state content rest hlast
    have hloop : tools_loop cfg registry beh now (tc :: rest) = none := by
      simp only [tools_loop, hret]
    simp only [tools_node, hlast, toolCallsOf, hloop]

/-- Witness for C10: under the default configuration any call returns a
pair; with `max_tool_retries = -1` the wrapper returns `None` and the tools
node fails on a state requesting tool calls. -/
theorem retry_budget_sign_totality_witness :
    ((execute_tool_call_with_retries {} ["t"] wBehOk wTc 0).1.isSome = true
     ∧ 1 ≤ (execute_tool_call_with_retries {} ["t"] wBehOk wTc 0).2.1)
    ∧ (execute_tool_call_with_retries negRetryCfg ["t"] wBehOk
         { id := "a", name := "t", args := [] } 0 = (none, 0, [])
       ∧ tools_node negRetryCfg ["t"] wBehOk 0 wStateCalls = none) :=
  ⟨(retry_budget_sign_totality {} ["t"] wBehOk wTc 0).1 (by decide),
   ((retry_budget_sign_totality negRetryCfg ["t"] wBehOk
       { id := "a", name := "t", args := [] } 0).2 (by decide)).1,
   ((retry_budget_sign_totality negRetryCfg ["t"] wBehOk
       { id := "a", name := "t", args := [] } 0).2 (by decide)).2 wStateCalls ""
     [{ id := "b", name := "t", args := [] }, { id := "c", name := "u", args := [] }]
     rfl⟩
